import Mathlib

/-!
Shallow embedding of the CSS-autograder script `grade.cjs` (lab "3-1-css-basics").

Strings are modelled as Lean `String`s (lists of characters); the script's
regular-expression operations are embedded as explicit character-list scans
with the same semantics.  JavaScript numbers are modelled exactly: the
per-task fractions and weighted sums are rational numbers (`ℚ`) and
`Math.round` is `⌊x + 1/2⌋` (its behaviour on the non-negative values that
occur here).
-/

namespace Grade

/-- JavaScript regex `\s` (whitespace class), restricted to the ASCII
whitespace characters that can occur in the graded text. -/
def jsIsSpace (c : Char) : Bool :=
  c = ' ' || c = '\t' || c = '\n' || c = '\r' || c = '\x0b' || c = '\x0c'

/-- JavaScript regex `\w` (word character): ASCII letter, digit or underscore. -/
def isWordChar (c : Char) : Bool :=
  c.isAlpha || c.isDigit || c = '_'

/-- A character that is neither `{` nor `}` (the class `[^{}]`). -/
def isBraceFree (c : Char) : Bool :=
  c ≠ '{' && c ≠ '}'

/-- Lowercase every character (JS `String.prototype.toLowerCase` on the
ASCII text handled here). -/
def lowerL (l : List Char) : List Char :=
  l.map Char.toLower

/-- JS `String.prototype.trim`: drop leading and trailing whitespace. -/
def jsTrim (l : List Char) : List Char :=
  ((l.dropWhile jsIsSpace).reverse.dropWhile jsIsSpace).reverse

/-- JS `replace(/\s+/g, " ")`: every maximal run of whitespace becomes a
single space. -/
def collapseWs : List Char → List Char
  | [] => []
  | [c] => if jsIsSpace c then [' '] else [c]
  | c₁ :: c₂ :: rest =>
    if jsIsSpace c₁ && jsIsSpace c₂ then collapseWs (c₂ :: rest)
    else (if jsIsSpace c₁ then ' ' else c₁) :: collapseWs (c₂ :: rest)

/-- JS `String.prototype.split(",")` on a character list. -/
def splitOnComma : List Char → List (List Char)
  | [] => [[]]
  | ',' :: rest => [] :: splitOnComma rest
  | c :: rest =>
    match splitOnComma rest with
    | h :: t => (c :: h) :: t
    | [] => [[c]]

/-- Does `hay` start with `needle`? -/
def startsWithL : List Char → List Char → Bool
  | [], _ => true
  | _ :: _, [] => false
  | n :: ns, h :: hs => n = h && startsWithL ns hs

/-- JS `String.prototype.includes`: `needle` occurs as a contiguous
substring of `hay`. -/
def containsSub (hay needle : List Char) : Bool :=
  startsWithL needle hay ||
    match hay with
    | [] => false
    | _ :: t => containsSub t needle

/-- Scan for the first `*/` and return the characters after it
(`None` when the comment is never closed).  Helper for the comment
stripper. -/
def dropComment : List Char → Option (List Char)
  | [] => none
  | '*' :: '/' :: rest => some rest
  | _ :: rest => dropComment rest

/-- Fuelled body of `stripCssComments` (`css.replace(/\/\*[\s\S]*?\*\//g, "")`):
each `/*` opens a comment closed by the first following `*/`; an unclosed
`/*` is not a match and its text is kept.  One unit of fuel is spent per
step; `length + 1` fuel always suffices because every step consumes at
least one character. -/
def stripGo : Nat → List Char → List Char
  | 0, _ => []
  | _ + 1, [] => []
  | fuel + 1, '/' :: '*' :: rest =>
    match dropComment rest with
    | some rest' => stripGo fuel rest'
    | none => '/' :: '*' :: rest
  | fuel + 1, c :: rest => c :: stripGo fuel rest

/-- `stripCssComments` from grade.cjs. -/
def stripCssComments (css : String) : String :=
  ⟨stripGo (css.data.length + 1) css.data⟩

/-- `compactWs` from grade.cjs: `s.replace(/\s+/g, " ").trim()`. -/
def compactWs (s : String) : String :=
  ⟨jsTrim (collapseWs s.data)⟩

/-- `isEmptyCss` from grade.cjs: after stripping comments and compacting
whitespace, fewer than 10 characters remain. -/
def isEmptyCss (css : String) : Bool :=
  (compactWs (stripCssComments css)).length < 10

/-- `normalizeSelector` from grade.cjs:
`s.toLowerCase().replace(/\s+/g, " ").trim()`. -/
def normalizeSelector (s : String) : String :=
  ⟨jsTrim (collapseWs (lowerL s.data))⟩

/-- `normalizeDecls` from grade.cjs (same normalization, applied to the
declaration block text). -/
def normalizeDecls (s : String) : String :=
  ⟨jsTrim (collapseWs (lowerL s.data))⟩

/-- One extracted CSS rule: a normalized selector together with the
normalized text of its declaration block. -/
structure Rule where
  selector : String
  decls : String
  deriving DecidableEq, Repr

/-- The rules pushed for one regex match `([^{}]+)\{([^}]*)\}`:
split the selector text on commas, normalize each piece, drop empty
pieces (`filter(Boolean)`), and emit one `Rule` per remaining piece, all
sharing the normalized declaration text. -/
def emitRules (selRaw declRaw : List Char) : List Rule :=
  (((splitOnComma selRaw).map (fun x => normalizeSelector ⟨x⟩)).filter
      (fun s => s ≠ "")).map
    (fun sel => ⟨sel, normalizeDecls ⟨declRaw⟩⟩)

/-- Fuelled body of `parseCssRules`: the `re.exec` loop over
`([^{}]+)\{([^}]*)\}`.  A match starts at the first brace-free character,
its selector part is the maximal brace-free run, which must be followed
by `{`; the declaration part runs to the first `}` (which may therefore
skip over further `{` characters); scanning resumes after that `}`.
If a `{` has no `}` anywhere after it, no further match exists.
Every recursive call consumes at least one character, so `length + 1`
fuel always suffices. -/
def rulesGo : Nat → List Char → List Rule
  | 0, _ => []
  | _ + 1, [] => []
  | fuel + 1, c :: rest =>
    if c = '{' || c = '}' then rulesGo fuel rest
    else
      let pre := c :: rest.takeWhile isBraceFree
      match rest.dropWhile isBraceFree with
      | '{' :: afterBrace =>
        let declRaw := afterBrace.takeWhile (fun d => d ≠ '}')
        match afterBrace.dropWhile (fun d => d ≠ '}') with
        | '}' :: tail => emitRules pre declRaw ++ rulesGo fuel tail
        | _ => []
      | rest₂ => rulesGo fuel rest₂

/-- `parseCssRules` from grade.cjs: strip comments, then scan for
`selector { decls }` blocks. -/
def parseCssRules (cssText : String) : List Rule :=
  let css := (stripCssComments cssText).data
  rulesGo (css.length + 1) css

/-- Word-character status of an optional character (out of range counts
as non-word). -/
def optWord : Option Char → Bool
  | none => false
  | some c => isWordChar c

/-- Zero-width word-boundary test `\b` between a previous character
(`none` at the start of the string) and the rest of the string
(out-of-range counts as a non-word character). -/
def boundaryAt (prev : Option Char) (hay : List Char) : Bool :=
  optWord prev ≠ optWord hay.head?

/-- Does `hay` start with the literal `p`, then `\s*`, then `:`?
(The tail of the regex `\b<p>\s*:` after the boundary.) -/
def startsUntilColon : List Char → List Char → Bool
  | [], hay =>
    match hay.dropWhile jsIsSpace with
    | ':' :: _ => true
    | _ => false
  | _ :: _, [] => false
  | n :: ns, h :: hs => n = h && startsUntilColon ns hs

/-- Search `hay` for a match of `\b<p>\s*:` starting at any position;
`prev` is the character just before the current position. -/
def searchProp (p : List Char) (prev : Option Char) (hay : List Char) : Bool :=
  (boundaryAt prev hay && startsUntilColon p hay) ||
    match hay with
    | [] => false
    | c :: rest => searchProp p (some c) rest

/-- The test `new RegExp("\\b" + escapeRegExp(p) + "\\s*:", "i").test(decls)`
from grade.cjs.  The property names used contain only letters and hyphens,
on which `escapeRegExp` is the identity, so the pattern is the literal name;
the `i` flag is modelled by lowercasing both sides (word-char status is
unchanged by ASCII case). -/
def propColonTest (decls p : String) : Bool :=
  searchProp (lowerL p.data) none (lowerL decls.data)

/-- `declsHasAnyProperty` from grade.cjs. -/
def declsHasAnyProperty (decls : String) (propNames : List String) : Bool :=
  propNames.any (fun p => propColonTest decls p)

/-- `declsHasAllProperties` from grade.cjs. -/
def declsHasAllProperties (decls : String) (propNames : List String) : Bool :=
  propNames.all (fun p => propColonTest decls p)

/-- The `selectorMatcher` argument of `findMatchingRules`:
a string, a regular expression (modelled by its test function), or a
predicate function over the normalized selector. -/
inductive SelMatcher where
  | str (s : String)
  | re (test : String → Bool)
  | fn (f : String → Bool)

/-- `findMatchingRules` from grade.cjs. -/
def findMatchingRules (rules : List Rule) : SelMatcher → List Rule
  | .str s =>
    let target := normalizeSelector s
    rules.filter (fun r => r.selector = target)
  | .re t => rules.filter (fun r => t r.selector)
  | .fn f => rules.filter (fun r => f r.selector)

/-- The destructured options argument of `ruleSatisfies`
(`{ anyProps = [], allProps = [], mustInclude = [] }`). -/
structure ReqSpec where
  anyProps : List String := []
  allProps : List String := []
  mustInclude : List String := []

/-- `ruleSatisfies` from grade.cjs. -/
def ruleSatisfies (rules : List Rule) (m : SelMatcher) (spec : ReqSpec) : Bool :=
  let ms := findMatchingRules rules m
  if ms.length = 0 then false
  else
    ms.any (fun r =>
      let d := r.decls
      let okAll := if spec.allProps.length ≠ 0 then declsHasAllProperties d spec.allProps else true
      let okAny := if spec.anyProps.length ≠ 0 then declsHasAnyProperty d spec.anyProps else true
      let okInclude :=
        if spec.mustInclude.length ≠ 0 then
          spec.mustInclude.all (fun needle => containsSub d.data (lowerL needle.data))
        else true
      okAll && okAny && okInclude)

/-- The `RELATED` table from grade.cjs (related CSS properties accepted as
alternatives; values are never checked). -/
def RELATED_color : List String := ["color"]

/-- `RELATED.fontSize` (allow the `font` shorthand). -/
def RELATED_fontSize : List String := ["font-size", "font"]

/-- `RELATED.fontFamily`. -/
def RELATED_fontFamily : List String := ["font-family", "font"]

/-- `RELATED.fontWeight`. -/
def RELATED_fontWeight : List String := ["font-weight", "font"]

/-- `RELATED.background`. -/
def RELATED_background : List String := ["background-color", "background"]

/-- `RELATED.padding`. -/
def RELATED_padding : List String :=
  ["padding", "padding-top", "padding-right", "padding-bottom", "padding-left"]

/-- `RELATED.textDecoration`. -/
def RELATED_textDecoration : List String :=
  ["text-decoration", "text-decoration-line", "text-decoration-style",
   "text-decoration-thickness"]

/-- `RELATED.boxSizing`. -/
def RELATED_boxSizing : List String := ["box-sizing"]

/-- A requirement record produced by `req(label, ok, detailIfFail)`. -/
structure Req where
  label : String
  ok : Bool
  detailIfFail : String
  deriving DecidableEq, Repr

/-- `req` from grade.cjs (`ok: !!ok` — the condition is already boolean
here). -/
def req (label : String) (ok : Bool) (detailIfFail : String := "") : Req :=
  ⟨label, ok, detailIfFail⟩

/-- Result of `scoreFromRequirements`. -/
structure Score where
  ok : Nat
  total : Nat
  fraction : ℚ
  deriving DecidableEq, Repr

/-- `scoreFromRequirements` from grade.cjs: count of satisfied
requirements, total count, and their quotient (0 for an empty list — the
division-by-zero guard). -/
def scoreFromRequirements (reqs : List Req) : Score :=
  let total := reqs.length
  let ok := (reqs.filter (fun r => r.ok)).length
  if total = 0 then ⟨0, 0, 0⟩ else ⟨ok, total, (ok : ℚ) / (total : ℚ)⟩

/-- `/:\s*[^;]+;?/.test(decls)` (the "declares at least one property"
check of TODO 5): a `:` followed — after optional whitespace, which the
class `[^;]` itself also accepts — by at least one non-`;` character. -/
def hasColonDecl : List Char → Bool
  | ':' :: c :: rest => (c ≠ ';') || hasColonDecl (c :: rest)
  | _ :: rest => hasColonDecl rest
  | [] => false

/-- The matcher `/^\.chat-container\s+\.message$/i` and its sibling for
`.message-time`: the selector must be exactly `a`, one or more whitespace
characters, then `b`, case-insensitively. -/
def descendantSelTest (a b : String) (sel : String) : Bool :=
  let l := lowerL sel.data
  if startsWithL a.data l then
    let rest := l.drop a.data.length
    let ws := rest.takeWhile jsIsSpace
    ws.length ≠ 0 && rest.dropWhile jsIsSpace = b.data
  else false

/-- The TODO 4 function matcher
`(sel) => sel.replace(/\s+/g, "") === "p.winner"`. -/
def pWinnerTest (sel : String) : Bool :=
  sel.data.filter (fun c => ¬ jsIsSpace c) = "p.winner".data

/-- One configured task: id, display name, and its requirement builder
over the extracted rule list (the closures in the `tasks` array capture
the global `rules`; here it is an explicit parameter). -/
structure Task where
  id : String
  name : String
  requirements : List Rule → List Req

/-- TODO 1 requirements. -/
def todo1Reqs (rules : List Rule) : List Req :=
  [req "Has a \"p \x7b ... \x7d\" rule" ((findMatchingRules rules (.str "p")).length ≠ 0)
     "Add a p selector rule.",
   req "p rule includes a color-related property"
     (ruleSatisfies rules (.str "p") { anyProps := RELATED_color })
     "Use a color property (e.g., color: ...).",
   req "p rule includes a font-size-related property"
     (ruleSatisfies rules (.str "p") { anyProps := RELATED_fontSize })
     "Use font-size (or font shorthand).",
   req "Has a \"span \x7b ... \x7d\" rule" ((findMatchingRules rules (.str "span")).length ≠ 0)
     "Add a span selector rule.",
   req "span rule includes a color-related property"
     (ruleSatisfies rules (.str "span") { anyProps := RELATED_color })
     "Use a color property (e.g., color: ...).",
   req "span rule includes a font-size-related property"
     (ruleSatisfies rules (.str "span") { anyProps := RELATED_fontSize })
     "Use font-size (or font shorthand)."]

/-- TODO 2 requirements. -/
def todo2Reqs (rules : List Rule) : List Req :=
  [req "Has a \".username \x7b ... \x7d\" rule"
     ((findMatchingRules rules (.str ".username")).length ≠ 0),
   req ".username includes a color-related property"
     (ruleSatisfies rules (.str ".username") { anyProps := RELATED_color })
     "Use a color property.",
   req ".username includes a font-weight-related property"
     (ruleSatisfies rules (.str ".username") { anyProps := RELATED_fontWeight })
     "Use font-weight (or font shorthand).",
   req "Has a \".blue-text \x7b ... \x7d\" rule"
     ((findMatchingRules rules (.str ".blue-text")).length ≠ 0),
   req ".blue-text includes a color-related property"
     (ruleSatisfies rules (.str ".blue-text") { anyProps := RELATED_color })
     "Use a color property.",
   req "Has a \".red-text \x7b ... \x7d\" rule"
     ((findMatchingRules rules (.str ".red-text")).length ≠ 0),
   req ".red-text includes a color-related property"
     (ruleSatisfies rules (.str ".red-text") { anyProps := RELATED_color })
     "Use a color property.",
   req "Has a \".highlight \x7b ... \x7d\" rule"
     ((findMatchingRules rules (.str ".highlight")).length ≠ 0),
   req ".highlight includes a background-related property (background or background-color)"
     (ruleSatisfies rules (.str ".highlight") { anyProps := RELATED_background })
     "Use background or background-color.",
   req ".highlight includes a padding-related property (padding or padding-*)"
     (ruleSatisfies rules (.str ".highlight") { anyProps := RELATED_padding })
     "Use padding or padding-*."]

/-- TODO 3 requirements. -/
def todo3Reqs (rules : List Rule) : List Req :=
  [req "Has a \"#featured-user \x7b ... \x7d\" rule"
     ((findMatchingRules rules (.str "#featured-user")).length ≠ 0)
     "Add an ID selector rule.",
   req "#featured-user includes a color-related property"
     (ruleSatisfies rules (.str "#featured-user") { anyProps := RELATED_color })
     "Use a color property.",
   req "#featured-user includes a font-size-related property"
     (ruleSatisfies rules (.str "#featured-user") { anyProps := RELATED_fontSize })
     "Use font-size (or font shorthand)."]

/-- TODO 4 requirements. -/
def todo4Reqs (rules : List Rule) : List Req :=
  [req "Has a \"p \x7b ... \x7d\" rule with a color-related property"
     (ruleSatisfies rules (.str "p") { anyProps := RELATED_color })
     "Add p \x7b color: ... \x7d.",
   req "Has a \".winner \x7b ... \x7d\" rule with a color-related property"
     (ruleSatisfies rules (.str ".winner") { anyProps := RELATED_color })
     "Add .winner \x7b color: ... \x7d.",
   req "Has a \"#specificity-test \x7b ... \x7d\" rule with a color-related property"
     (ruleSatisfies rules (.str "#specificity-test") { anyProps := RELATED_color })
     "Add #specificity-test \x7b color: ... \x7d.",
   req "Has a \"p.winner \x7b ... \x7d\" rule with a color-related property"
     (ruleSatisfies rules (.fn pWinnerTest) { anyProps := RELATED_color })
     "Add p.winner \x7b color: ... \x7d."]

/-- TODO 5 requirements. -/
def todo5Reqs (rules : List Rule) : List Req :=
  [req "Has a \".important-test \x7b ... \x7d\" rule"
     ((findMatchingRules rules (.str ".important-test")).length ≠ 0)
     "Add a class selector rule.",
   req ".important-test uses \"!important\" (on any property)"
     (ruleSatisfies rules (.str ".important-test") { mustInclude := ["!important"] })
     "Add !important (e.g., color: ... !important).",
   req ".important-test includes at least one declared property"
     ((findMatchingRules rules (.str ".important-test")).any
       (fun r => hasColonDecl r.decls.data))
     "Add at least one property declaration."]

/-- TODO 6 requirements. -/
def todo6Reqs (rules : List Rule) : List Req :=
  [req "Has a \".chat-container .message \x7b ... \x7d\" rule"
     ((findMatchingRules rules (.re (descendantSelTest ".chat-container" ".message"))).length ≠ 0)
     "Use a descendant selector.",
   req ".chat-container .message includes a color-related property"
     (ruleSatisfies rules (.re (descendantSelTest ".chat-container" ".message"))
       { anyProps := RELATED_color })
     "Use a color property.",
   req "Has a \".chat-container .message-time \x7b ... \x7d\" rule"
     ((findMatchingRules rules
         (.re (descendantSelTest ".chat-container" ".message-time"))).length ≠ 0)
     "Use a descendant selector.",
   req ".chat-container .message-time includes a color-related property"
     (ruleSatisfies rules (.re (descendantSelTest ".chat-container" ".message-time"))
       { anyProps := RELATED_color })
     "Use a color property.",
   req ".chat-container .message-time includes a font-size-related property"
     (ruleSatisfies rules (.re (descendantSelTest ".chat-container" ".message-time"))
       { anyProps := RELATED_fontSize })
     "Use font-size (or font shorthand)."]

/-- TODO 7 requirements. -/
def todo7Reqs (rules : List Rule) : List Req :=
  [req "Has a \".send-button:hover \x7b ... \x7d\" rule"
     ((findMatchingRules rules (.str ".send-button:hover")).length ≠ 0)
     "Add :hover rule.",
   req ".send-button:hover includes a background-related property"
     (ruleSatisfies rules (.str ".send-button:hover") { anyProps := RELATED_background })
     "Use background or background-color.",
   req ".send-button:hover includes a color-related property"
     (ruleSatisfies rules (.str ".send-button:hover") { anyProps := RELATED_color })
     "Use a color property.",
   req "Has a \".chat-link:hover \x7b ... \x7d\" rule"
     ((findMatchingRules rules (.str ".chat-link:hover")).length ≠ 0)
     "Add :hover rule.",
   req ".chat-link:hover includes a color-related property"
     (ruleSatisfies rules (.str ".chat-link:hover") { anyProps := RELATED_color })
     "Use a color property.",
   req ".chat-link:hover includes a text-decoration-related property"
     (ruleSatisfies rules (.str ".chat-link:hover") { anyProps := RELATED_textDecoration })
     "Use text-decoration (or related property)."]

/-- TODO 8 requirements. -/
def todo8Reqs (rules : List Rule) : List Req :=
  [req "Defines styling for h4.trending-tag, h5.trending-tag, and h6.trending-tag (grouped or separate)"
     ((findMatchingRules rules (.str "h4.trending-tag")).length ≠ 0 &&
      (findMatchingRules rules (.str "h5.trending-tag")).length ≠ 0 &&
      (findMatchingRules rules (.str "h6.trending-tag")).length ≠ 0)
     "Ensure all three selectors exist (can be grouped with commas).",
   req "Trending tag styles include a color-related property (on any of the three)"
     (ruleSatisfies rules (.str "h4.trending-tag") { anyProps := RELATED_color } ||
      ruleSatisfies rules (.str "h5.trending-tag") { anyProps := RELATED_color } ||
      ruleSatisfies rules (.str "h6.trending-tag") { anyProps := RELATED_color })
     "Use color.",
   req "Trending tag styles include a font-family-related property (or font shorthand) (on any of the three)"
     (ruleSatisfies rules (.str "h4.trending-tag") { anyProps := RELATED_fontFamily } ||
      ruleSatisfies rules (.str "h5.trending-tag") { anyProps := RELATED_fontFamily } ||
      ruleSatisfies rules (.str "h6.trending-tag") { anyProps := RELATED_fontFamily })
     "Use font-family or font."]

/-- TODO 9 requirements. -/
def todo9Reqs (rules : List Rule) : List Req :=
  [req "Has a \"* \x7b ... \x7d\" rule" ((findMatchingRules rules (.str "*")).length ≠ 0)
     "Add the universal selector.",
   req "* rule includes box-sizing"
     (ruleSatisfies rules (.str "*") { anyProps := RELATED_boxSizing })
     "Use box-sizing: ..."]

/-- The `tasks` array from grade.cjs. -/
def tasks : List Task :=
  [⟨"TODO 1", "Basic Element Selectors (p, span)", todo1Reqs⟩,
   ⟨"TODO 2", "Class Selectors (.username, .blue-text, .red-text, .highlight)", todo2Reqs⟩,
   ⟨"TODO 3", "ID Selector (#featured-user)", todo3Reqs⟩,
   ⟨"TODO 4", "Specificity Battle (p, .winner, #specificity-test, p.winner)", todo4Reqs⟩,
   ⟨"TODO 5", "!important Override (.important-test)", todo5Reqs⟩,
   ⟨"TODO 6", "Descendant Selectors (.chat-container .message, .chat-container .message-time)",
     todo6Reqs⟩,
   ⟨"TODO 7", "Pseudo-classes (:hover for .send-button and .chat-link)", todo7Reqs⟩,
   ⟨"TODO 8", "Group Selectors (h4/h5/h6.trending-tag)", todo8Reqs⟩,
   ⟨"TODO 9", "Universal Selector (*) with box-sizing", todo9Reqs⟩]

/-- The `todoWeights` table. -/
def todoWeightsList : List (String × Nat) :=
  [("TODO 1", 12), ("TODO 2", 14), ("TODO 3", 12), ("TODO 4", 12), ("TODO 5", 12),
   ("TODO 6", 14), ("TODO 7", 12), ("TODO 8", 12), ("TODO 9", 12)]

/-- `todoWeights[t.id] || 0`: weight lookup with default 0. -/
def todoWeight (id : String) : Nat :=
  match todoWeightsList.find? (fun p => p.1 = id) with
  | some p => p.2
  | none => 0

/-- `totalWeight = Object.values(todoWeights).reduce((a, b) => a + b, 0)`. -/
def totalWeight : Nat :=
  (todoWeightsList.map Prod.snd).foldl (· + ·) 0

/-- `TODO_BUCKET_MAX`. -/
def TODO_BUCKET_MAX : Nat := 80

/-- `SUBMISSION_MAX`. -/
def SUBMISSION_MAX : Nat := 20

/-- `TOTAL_MAX`. -/
def TOTAL_MAX : Nat := 100

/-- `DUE_EPOCH_MS = Date.parse("2025-09-15T23:59:00+03:00")`
(milliseconds of UTC 2025-09-15T20:59:00). -/
def DUE_EPOCH_MS : Int := 1757969940000

/-- `Math.round` on the non-negative finite values occurring here:
round half away from zero, i.e. `⌊x + 1/2⌋`. -/
def jsRound (x : ℚ) : Int :=
  ⌊x + 1 / 2⌋

/-- One entry of `taskResults`. -/
structure TaskResult where
  id : String
  name : String
  ok : Nat
  total : Nat
  fraction : ℚ
  weight : Nat
  earnedWeight : ℚ
  reqs : List Req
  deriving DecidableEq

/-- `taskResults` from grade.cjs, parameterized by the submission status
and the extracted rules.  For status 2 (missing/empty CSS) the task
evaluator is not run: a single unsatisfied placeholder requirement is
scored instead, and the earned weight is forced to 0. -/
def taskResults (status : Nat) (rules : List Rule) : List TaskResult :=
  tasks.map (fun t =>
    let reqs :=
      if status = 2 then [req "No submission / empty CSS → cannot grade TODOs" false]
      else t.requirements rules
    let sc := scoreFromRequirements reqs
    let weight := todoWeight t.id
    let earnedWeight : ℚ := if status = 2 then 0 else (weight : ℚ) * sc.fraction
    ⟨t.id, t.name, sc.ok, sc.total, sc.fraction, weight, earnedWeight, reqs⟩)

/-- `earnedWeightTotal = taskResults.reduce((sum, r) => sum + r.earnedWeight, 0)`. -/
def earnedWeightTotal (status : Nat) (rules : List Rule) : ℚ :=
  (taskResults status rules).foldl (fun sum r => sum + r.earnedWeight) 0

/-- `earnedTodoMarks`: 0 for a missing submission, otherwise the weighted
sum normalized into the 80-mark TODO bucket and rounded. -/
def earnedTodoMarks (status : Nat) (rules : List Rule) : Int :=
  if status = 2 then 0
  else jsRound ((TODO_BUCKET_MAX : ℚ) * earnedWeightTotal status rules / (totalWeight : ℚ))

/-- `submissionMarks = status === 2 ? 0 : status === 1 ? 10 : 20`. -/
def submissionMarks (status : Nat) : Int :=
  if status = 2 then 0 else if status = 1 then 10 else 20

/-- `totalEarned = Math.min(earnedTodoMarks + submissionMarks, TOTAL_MAX)`. -/
def totalEarned (status : Nat) (rules : List Rule) : Int :=
  min (earnedTodoMarks status rules + submissionMarks status) (TOTAL_MAX : Int)

/-- `cssEmpty = hasCss ? isEmptyCss(cssCode) : true` (with
`cssCode = hasCss ? readTextSafe(linkedCss) : ""`). -/
def cssEmptyOf (hasCss : Bool) (cssCode : String) : Bool :=
  if hasCss then isEmptyCss cssCode else true

/-- The status assignment: `if (!hasCss || cssEmpty) status = 2; else
status = late ? 1 : 0`. -/
def statusOf (hasCss : Bool) (cssCode : String) (late : Bool) : Nat :=
  if !hasCss || cssEmptyOf hasCss cssCode then 2
  else if late then 1 else 0

/-- `wasSubmittedLate` from grade.cjs over the resolved commit timestamp:
`!commitMs` (null, or the falsy value 0) fails open to on-time, otherwise
compare against the deadline. -/
def wasSubmittedLate (commitMs : Option Int) : Bool :=
  match commitMs with
  | none => false
  | some t => if t = 0 then false else decide (t > DUE_EPOCH_MS)

/-- One line of `git log --format=%ct|%an|%ae|%cn|%ce|%s`: commit
timestamp (epoch seconds — `%ct` is always a decimal number, so the
`Number.isFinite` guard of the script never skips an entry), author
name/email, committer name/email, and subject. -/
structure Commit where
  ct : Int
  an : String
  ae : String
  cn : String
  ce : String
  subject : String
  deriving DecidableEq

/-- `` `${an} ${ae} ${cn} ${ce} ${subject}`.toLowerCase() ``. -/
def commitHay (c : Commit) : List Char :=
  lowerL (c.an ++ " " ++ c.ae ++ " " ++ c.cn ++ " " ++ c.ce ++ " " ++ c.subject).data

/-- The automation markers tested against the lowercased haystack. -/
def botMarkers : List String :=
  ["[bot]", "github-actions", "actions@github.com", "github classroom",
   "classroom[bot]", "dependabot", "autograding", "workflow"]

/-- The `isBot` test of `getLatestStudentCommitEpochMs`. -/
def isBotCommit (c : Commit) : Bool :=
  botMarkers.any (fun m => containsSub (commitHay c) m.data)

/-- The `for (const line of lines)` loop: return the first (most recent)
non-automated commit's timestamp in milliseconds. -/
def findStudentCommit : List Commit → Option Int
  | [] => none
  | c :: rest => if isBotCommit c then findStudentCommit rest else some (c.ct * 1000)

/-- `getLatestStudentCommitEpochMs`, over the repository's commit history
(most recent first).  `gitOk = false` models `execSync` throwing (the
`catch` returns null); the `git log ... -n 300` output covers the most
recent 300 commits, and an empty output returns null; if every entry in
that window is automated, the fallback `git log -1` yields the single
most recent commit of any kind. -/
def getLatestStudentCommitEpochMs (gitOk : Bool) (history : List Commit) : Option Int :=
  if gitOk = false then none
  else
    let window := history.take 300
    if window.length = 0 then none
    else
      match findStudentCommit window with
      | some ms => some ms
      | none =>
        match history with
        | c :: _ => some (c.ct * 1000)
        | [] => none

/-- The spec's description of the extractor scan, used to state C4 as a
refinement: repeatedly locate a span `<selector-text>{<declaration-text>}`
(no nested braces — the first `}` after a `{` closes the block), collect
the raw selector/declaration text pairs, and ignore text outside such
spans (including unmatched braces).  Same fuel convention as `rulesGo`. -/
def specSpansGo : Nat → List Char → List (List Char × List Char)
  | 0, _ => []
  | _ + 1, [] => []
  | fuel + 1, c :: rest =>
    if c = '{' || c = '}' then specSpansGo fuel rest
    else
      match rest.dropWhile isBraceFree with
      | '{' :: afterBrace =>
        match afterBrace.dropWhile (fun d => d ≠ '}') with
        | '}' :: tail =>
          (c :: rest.takeWhile isBraceFree, afterBrace.takeWhile (fun d => d ≠ '}')) ::
            specSpansGo fuel tail
        | _ => []
      | rest₂ => specSpansGo fuel rest₂

/-- The spec's staged pipeline for the extractor: find all spans, then for
each span split the selector text on commas, normalize each piece,
discard empty pieces, and emit one Rule per remaining piece, all sharing
the normalized declaration text. -/
def specExtractRules (css : String) : List Rule :=
  let body := (stripCssComments css).data
  (specSpansGo (body.length + 1) body).flatMap
    (fun sp =>
      (((splitOnComma sp.1).map (fun x => normalizeSelector ⟨x⟩)).filter
          (fun s => s ≠ "")).map
        (fun sel => ⟨sel, normalizeDecls ⟨sp.2⟩⟩))

/-- The character standing just before a split point: the last character
of `pre`, or — when `pre` is empty — the character just before the whole
search region. -/
def beforeSplit (prev : Option Char) (pre : List Char) : Option Char :=
  match pre.getLast? with
  | some c => some c
  | none => prev

/-- The spec's reading of the property test (for C2): the lowercased
declaration text contains the lowercased property name immediately
followed by an optional run of whitespace and a colon, and the occurrence
sits at a word boundary — since a property name starts with a word
character, the character just before the occurrence (if any) must be a
non-word character. -/
def SpecPropMatch (d p : String) : Prop :=
  ∃ pre ws suf : List Char,
    lowerL d.data = pre ++ lowerL p.data ++ ws ++ ':' :: suf ∧
    (∀ c ∈ ws, jsIsSpace c = true) ∧
    (pre = [] ∨ ∃ c, pre.getLast? = some c ∧ isWordChar c = false)

end Grade


namespace Grade

/-! ## Helper lemmas -/

theorem foldl_add_earnedWeight (l : List TaskResult) (a : ℚ) :
    l.foldl (fun s r => s + r.earnedWeight) a = a + (l.map (fun r => r.earnedWeight)).sum := by
  induction l generalizing a with
  | nil => simp
  | cons x xs ih => simp [List.foldl_cons, ih]; ring

theorem scoreFromRequirements_fraction_eq (reqs : List Req) :
    (scoreFromRequirements reqs).fraction =
      (if (scoreFromRequirements reqs).total = 0 then 0
       else ((scoreFromRequirements reqs).ok : ℚ) / ((scoreFromRequirements reqs).total : ℚ)) := by
  unfold scoreFromRequirements
  by_cases h : reqs.length = 0 <;> simp [h]

theorem scoreFromRequirements_fraction_nonneg (reqs : List Req) :
    0 ≤ (scoreFromRequirements reqs).fraction := by
  unfold scoreFromRequirements
  by_cases h : reqs.length = 0 <;> simp [h]
  positivity

theorem scoreFromRequirements_fraction_le_one (reqs : List Req) :
    (scoreFromRequirements reqs).fraction ≤ 1 := by
  unfold scoreFromRequirements
  by_cases h : reqs.length = 0 <;> simp [h]
  rw [div_le_one (by positivity)]
  exact_mod_cast List.length_filter_le _ _

theorem taskResults_mem_spec {s : Nat} {rules : List Rule} {r : TaskResult}
    (h : r ∈ taskResults s rules) :
    r.fraction = (if r.total = 0 then 0 else (r.ok : ℚ) / (r.total : ℚ)) ∧
    0 ≤ r.fraction ∧ r.fraction ≤ 1 ∧
    r.earnedWeight = (if s = 2 then 0 else (r.weight : ℚ) * r.fraction) ∧
    (s = 2 → r.reqs = [req "No submission / empty CSS → cannot grade TODOs" false]) := by
  unfold taskResults at h
  obtain ⟨t, _, rfl⟩ := List.mem_map.1 h
  refine ⟨?_, ?_, ?_, ?_, ?_⟩
  · exact scoreFromRequirements_fraction_eq _
  · exact scoreFromRequirements_fraction_nonneg _
  · exact scoreFromRequirements_fraction_le_one _
  · rfl
  · intro h2; simp [h2]

theorem totalWeight_eq : (totalWeight : ℚ) = 112 := by
  norm_num [totalWeight, todoWeightsList]

theorem taskResults_map_weight (s : Nat) (rules : List Rule) :
    (taskResults s rules).map (fun r => (r.weight : ℚ)) = [12, 14, 12, 12, 12, 14, 12, 12, 12] := by
  simp [taskResults, tasks, todoWeight, todoWeightsList, List.find?]

theorem earnedWeightTotal_le (s : Nat) (rules : List Rule) :
    earnedWeightTotal s rules ≤ 112 := by
  unfold earnedWeightTotal
  rw [foldl_add_earnedWeight, zero_add]
  calc ((taskResults s rules).map (fun r => r.earnedWeight)).sum
      ≤ ((taskResults s rules).map (fun r => (r.weight : ℚ))).sum := by
        apply List.sum_le_sum
        intro r hr
        obtain ⟨_, hf0, hf1, he, _⟩ := taskResults_mem_spec hr
        by_cases h2 : s = 2
        · simp [he, h2]
        · simp only [h2, if_false] at he
          rw [he]
          calc (r.weight : ℚ) * r.fraction ≤ (r.weight : ℚ) * 1 :=
                mul_le_mul_of_nonneg_left hf1 (by positivity)
            _ = (r.weight : ℚ) := mul_one _
    _ = 112 := by rw [taskResults_map_weight]; norm_num

theorem jsRound_le_of_le (x : ℚ) (n : ℤ) (h : x ≤ (n : ℚ)) : jsRound x ≤ n := by
  unfold jsRound
  have h2 : x + 1 / 2 ≤ (n : ℚ) + 1 / 2 := by linarith
  calc ⌊x + 1 / 2⌋ ≤ ⌊(n : ℚ) + 1 / 2⌋ := Int.floor_le_floor h2
    _ = n := by
        rw [add_comm, Int.floor_add_int]
        norm_num

theorem earnedTodoMarks_le (s : Nat) (rules : List Rule) :
    earnedTodoMarks s rules ≤ 80 := by
  unfold earnedTodoMarks
  by_cases h2 : s = 2
  · simp [h2]
  · simp only [h2, if_false]
    apply jsRound_le_of_le
    push_cast
    rw [totalWeight_eq]
    have h := earnedWeightTotal_le s rules
    have : (TODO_BUCKET_MAX : ℚ) = 80 := by norm_num [TODO_BUCKET_MAX]
    rw [this]
    rw [div_le_iff₀ (by norm_num)]
    linarith

theorem submissionMarks_le (s : Nat) : submissionMarks s ≤ 20 := by
  unfold submissionMarks
  by_cases h2 : s = 2 <;> by_cases h1 : s = 1 <;> simp [h1, h2]

/-! ## Claim theorems -/

/-- C7: the final score is the TODO-bucket value plus the submission-status
component clamped to at most 100; since the TODO bucket never exceeds 80
and the status component never exceeds 20, the clamp is unreachable and
the total is always exactly the unclamped sum. -/
theorem total_clamp_unreachable (s : Nat) (rules : List Rule) :
    totalEarned s rules = min (earnedTodoMarks s rules + submissionMarks s) 100 ∧
    earnedTodoMarks s rules ≤ 80 ∧
    submissionMarks s ≤ 20 ∧
    totalEarned s rules = earnedTodoMarks s rules + submissionMarks s := by
  refine ⟨rfl, earnedTodoMarks_le s rules, submissionMarks_le s, ?_⟩
  unfold totalEarned
  have h1 := earnedTodoMarks_le s rules
  have h2 := submissionMarks_le s
  have : (TOTAL_MAX : Int) = 100 := by norm_num [TOTAL_MAX]
  rw [this, min_eq_left (by omega)]

/-- C6: on a MISSING submission (status 2) every task's requirement list
is the single unsatisfied placeholder, every earned weight is 0, the TODO
bucket is 0, the status component is 0, and the total score is 0. -/
theorem missing_short_circuit (rules : List Rule) :
    (∀ r ∈ taskResults 2 rules,
       r.reqs = [req "No submission / empty CSS → cannot grade TODOs" false] ∧
       r.earnedWeight = 0) ∧
    earnedTodoMarks 2 rules = 0 ∧
    submissionMarks 2 = 0 ∧
    totalEarned 2 rules = 0 := by
  refine ⟨?_, rfl, rfl, ?_⟩
  · intro r hr
    obtain ⟨_, _, _, he, hreqs⟩ := taskResults_mem_spec hr
    exact ⟨hreqs rfl, by simpa using he⟩
  · unfold totalEarned earnedTodoMarks submissionMarks TOTAL_MAX
    norm_num

/-- C5: `ruleSatisfies` returns true exactly when some rule matching the
selector query meets all three (conditionally imposed) sub-conditions,
and returns false whenever no rule matches the query. -/
theorem satisfies_exists_matching_rule (rules : List Rule) (m : SelMatcher) (spec : ReqSpec) :
    (ruleSatisfies rules m spec = true ↔
      ∃ r ∈ findMatchingRules rules m,
        (spec.allProps.length ≠ 0 → declsHasAllProperties r.decls spec.allProps = true) ∧
        (spec.anyProps.length ≠ 0 → declsHasAnyProperty r.decls spec.anyProps = true) ∧
        (spec.mustInclude.length ≠ 0 →
          spec.mustInclude.all (fun needle => containsSub r.decls.data (lowerL needle.data)) = true)) ∧
    (findMatchingRules rules m = [] → ruleSatisfies rules m spec = false) := by
  constructor
  · unfold ruleSatisfies
    by_cases h : (findMatchingRules rules m).length = 0
    · rw [List.length_eq_zero] at h
      simp [h]
    · simp only [h, if_false, List.any_eq_true]
      constructor
      · rintro ⟨r, hr, hok⟩
        refine ⟨r, hr, ?_⟩
        simp only [Bool.and_eq_true] at hok
        obtain ⟨⟨hAll, hAny⟩, hInc⟩ := hok
        refine ⟨fun hne => ?_, fun hne => ?_, fun hne => ?_⟩
        · simpa [hne] using hAll
        · simpa [hne] using hAny
        · simpa [hne] using hInc
      · rintro ⟨r, hr, hAll, hAny, hInc⟩
        refine ⟨r, hr, ?_⟩
        simp only [Bool.and_eq_true]
        refine ⟨⟨?_, ?_⟩, ?_⟩
        · by_cases hne : spec.allProps.length = 0 <;> simp [hne, hAll]
        · by_cases hne : spec.anyProps.length = 0 <;> simp [hne, hAny]
        · by_cases hne : spec.mustInclude.length = 0 <;> simp [hne, hInc]
  · intro h
    unfold ruleSatisfies
    simp [h]

/-- C10: a located stylesheet is classified empty exactly when fewer than
10 characters remain after stripping comments and compacting whitespace;
consequently the well-formed 8-character stylesheet `i{top:0}` — which
parses to one rule — is graded MISSING (status 2) with total score 0. -/
theorem empty_css_threshold :
    (∀ css : String,
       (isEmptyCss css = true ↔ (compactWs (stripCssComments css)).length < 10)) ∧
    isEmptyCss "i\x7btop:0\x7d" = true ∧
    parseCssRules "i\x7btop:0\x7d" = [⟨"i", "top:0"⟩] ∧
    (∀ late : Bool, statusOf true "i\x7btop:0\x7d" late = 2) ∧
    totalEarned (statusOf true "i\x7btop:0\x7d" false) (parseCssRules "i\x7btop:0\x7d") = 0 := by
  refine ⟨fun css => ?_, by decide, by decide, by decide, ?_⟩
  · unfold isEmptyCss
    exact decide_eq_true_iff
  · have h2 : statusOf true "i\x7btop:0\x7d" false = 2 := by decide
    rw [h2]
    unfold totalEarned earnedTodoMarks submissionMarks TOTAL_MAX
    norm_num

/-- C3: the submission status is 2 (MISSING) exactly when no stylesheet is
located or the located stylesheet is empty/comments-only; with a present,
non-empty stylesheet the status is 1 (LATE) exactly when the resolved
commit timestamp is after the deadline, and 0 (ON_TIME) when the
timestamp is absent (fail open) or at/before the deadline. -/
theorem status_classification (hasCss : Bool) (cssCode : String) (commitMs : Option Int) :
    (statusOf hasCss cssCode (wasSubmittedLate commitMs) = 2 ↔
       (hasCss = false ∨ isEmptyCss cssCode = true)) ∧
    (hasCss = true → isEmptyCss cssCode = false →
      ((statusOf hasCss cssCode (wasSubmittedLate commitMs) = 1 ↔
          ∃ t, commitMs = some t ∧ DUE_EPOCH_MS < t) ∧
       (statusOf hasCss cssCode (wasSubmittedLate commitMs) = 0 ↔
          (commitMs = none ∨ ∃ t, commitMs = some t ∧ t ≤ DUE_EPOCH_MS)))) := by
  constructor
  · unfold statusOf cssEmptyOf
    cases hasCss with
    | false => simp
    | true =>
      by_cases he : isEmptyCss cssCode
      · simp [he]
      · simp only [he, Bool.not_true, Bool.false_or, if_false]
        constructor
        · intro h
          by_cases hl : wasSubmittedLate commitMs = true <;> simp [hl] at h
        · rintro (h | h) <;> simp_all
  · rintro rfl he
    unfold statusOf cssEmptyOf
    simp only [he, Bool.not_true, Bool.false_or, if_false]
    cases commitMs with
    | none =>
      unfold wasSubmittedLate
      constructor
      · simp
      · simp
    | some t =>
      unfold wasSubmittedLate
      by_cases h0 : t = 0
      · subst h0
        have : ¬ (DUE_EPOCH_MS < (0 : Int)) := by unfold DUE_EPOCH_MS; omega
        simp [this]
        omega
      · simp only [h0, if_false]
        by_cases hl : DUE_EPOCH_MS < t
        · simp [hl]
        · simp [hl]
          omega

/-- Witness for C7-adjacent C5: with one `p` rule and the query `q`, no
rule matches and `ruleSatisfies` is false. -/
theorem satisfies_exists_matching_rule_witness :
    ruleSatisfies [⟨"p", "color:red"⟩] (.str "q") {} = false :=
  (satisfies_exists_matching_rule [⟨"p", "color:red"⟩] (.str "q") {}).2 (by decide)

/-- Witness for C6 at the first task of a missing run. -/
theorem missing_short_circuit_witness :
    (⟨"TODO 1", "Basic Element Selectors (p, span)", 0, 1, 0, 12, 0,
        [req "No submission / empty CSS → cannot grade TODOs" false]⟩ : TaskResult).reqs =
      [req "No submission / empty CSS → cannot grade TODOs" false] ∧
    (⟨"TODO 1", "Basic Element Selectors (p, span)", 0, 1, 0, 12, 0,
        [req "No submission / empty CSS → cannot grade TODOs" false]⟩ : TaskResult).earnedWeight = 0 :=
  (missing_short_circuit []).1 _
    (by simp [taskResults, tasks, scoreFromRequirements, req, todoWeight, todoWeightsList])

/-- Witness for C3: a present, non-empty stylesheet whose latest student
commit is 1000 ms past the deadline is classified LATE (status 1). -/
theorem status_classification_witness :
    statusOf true "p \x7b color: red; font-size: 14px; \x7d"
      (wasSubmittedLate (some (DUE_EPOCH_MS + 1000))) = 1 :=
  ((status_classification true "p \x7b color: red; font-size: 14px; \x7d"
      (some (DUE_EPOCH_MS + 1000))).2 rfl (by decide)).1.mpr
    ⟨DUE_EPOCH_MS + 1000, rfl, by omega⟩

/-- C1: for a graded (non-missing) submission the TODO bucket equals
`round(80 * Σ weight_t * fraction_t / totalWeight)` where each task's
fraction is satisfiedCount/totalCount (0 for a task with no requirements);
in particular a task with 2 of 4 requirements satisfied and weight 12
contributes `12 * 1/2 = 6` earned weight, and a bucket consisting of that
contribution alone rounds to `round(80 * 6 / 112) = 4`. -/
theorem todo_bucket_weighted_normalization (s : Nat) (rules : List Rule) (h : s ≠ 2) :
    earnedTodoMarks s rules =
      jsRound ((80 : ℚ) *
        (((taskResults s rules).map (fun r => (r.weight : ℚ) * r.fraction)).sum) /
        (totalWeight : ℚ)) ∧
    (∀ r ∈ taskResults s rules,
       r.fraction = (if r.total = 0 then 0 else (r.ok : ℚ) / (r.total : ℚ))) ∧
    (∀ reqs : List Req, reqs.length = 4 → (reqs.filter (fun x => x.ok)).length = 2 →
       (scoreFromRequirements reqs).fraction = 1 / 2 ∧
       (12 : ℚ) * (scoreFromRequirements reqs).fraction = 6 ∧
       jsRound ((80 : ℚ) * ((12 : ℚ) * (1 / 2)) / (totalWeight : ℚ)) = 4) := by
  refine ⟨?_, ?_, ?_⟩
  · unfold earnedTodoMarks
    rw [if_neg h]
    have hb : (TODO_BUCKET_MAX : ℚ) = 80 := by norm_num [TODO_BUCKET_MAX]
    rw [hb]
    unfold earnedWeightTotal
    rw [foldl_add_earnedWeight, zero_add]
    have hmap : (taskResults s rules).map (fun r => r.earnedWeight) =
        (taskResults s rules).map (fun r => (r.weight : ℚ) * r.fraction) := by
      apply List.map_congr_left
      intro r hr
      obtain ⟨_, _, _, he, _⟩ := taskResults_mem_spec hr
      rw [he, if_neg h]
    rw [hmap]
  · intro r hr
    exact (taskResults_mem_spec hr).1
  · intro reqs hlen hok
    have hfrac : (scoreFromRequirements reqs).fraction = 1 / 2 := by
      unfold scoreFromRequirements
      rw [hlen, hok]
      norm_num
    refine ⟨hfrac, by rw [hfrac]; norm_num, ?_⟩
    rw [totalWeight_eq]
    unfold jsRound
    rw [Int.floor_eq_iff]
    norm_num

/-- Witness for C1 at a concrete on-time run with no rules and a concrete
4-requirement task evaluation. -/
theorem todo_bucket_weighted_normalization_witness :
    (earnedTodoMarks 0 [] =
      jsRound ((80 : ℚ) *
        (((taskResults 0 []).map (fun r => (r.weight : ℚ) * r.fraction)).sum) /
        (totalWeight : ℚ))) ∧
    ((⟨"TODO 1", "Basic Element Selectors (p, span)", 0, 6, 0, 12, 0,
        todo1Reqs []⟩ : TaskResult).fraction =
      (if (⟨"TODO 1", "Basic Element Selectors (p, span)", 0, 6, 0, 12, 0,
        todo1Reqs []⟩ : TaskResult).total = 0 then 0
       else ((⟨"TODO 1", "Basic Element Selectors (p, span)", 0, 6, 0, 12, 0,
        todo1Reqs []⟩ : TaskResult).ok : ℚ) /
         ((⟨"TODO 1", "Basic Element Selectors (p, span)", 0, 6, 0, 12, 0,
        todo1Reqs []⟩ : TaskResult).total : ℚ))) ∧
    ((scoreFromRequirements
        [req "a" true, req "b" true, req "c" false, req "d" false]).fraction = 1 / 2 ∧
     (12 : ℚ) * (scoreFromRequirements
        [req "a" true, req "b" true, req "c" false, req "d" false]).fraction = 6 ∧
     jsRound ((80 : ℚ) * ((12 : ℚ) * (1 / 2)) / (totalWeight : ℚ)) = 4) :=
  ⟨(todo_bucket_weighted_normalization 0 [] (by decide)).1,
   (todo_bucket_weighted_normalization 0 [] (by decide)).2.1 _
     (by simp [taskResults, tasks, scoreFromRequirements, todo1Reqs, req,
           findMatchingRules, ruleSatisfies, todoWeight, todoWeightsList]),
   (todo_bucket_weighted_normalization 0 [] (by decide)).2.2 _ (by decide) (by decide)⟩

theorem mem_emitRules_selector_ne {selRaw declRaw : List Char} {r : Rule}
    (h : r ∈ emitRules selRaw declRaw) : r.selector ≠ "" := by
  unfold emitRules at h
  obtain ⟨sel, hsel, rfl⟩ := List.mem_map.1 h
  have hf := List.of_mem_filter hsel
  simpa using hf

theorem rulesGo_selector_ne (fuel : Nat) :
    ∀ (cs : List Char) (r : Rule), r ∈ rulesGo fuel cs → r.selector ≠ "" := by
  induction fuel with
  | zero => intro cs r h; simp [rulesGo] at h
  | succ fuel ih =>
    intro cs r h
    match cs with
    | [] => simp [rulesGo] at h
    | c :: rest =>
      simp only [rulesGo] at h
      split at h
      · exact ih rest r h
      · split at h
        · split at h
          · rcases List.mem_append.1 h with hm | hm
            · exact mem_emitRules_selector_ne hm
            · exact ih _ r hm
          · simp at h
        · exact ih _ r h

/-- C9: every rule produced by the extractor has a non-empty selector
(empty comma-pieces are discarded before emission). -/
theorem selector_nonempty_invariant (css : String) (r : Rule)
    (h : r ∈ parseCssRules css) : r.selector ≠ "" := by
  unfold parseCssRules at h
  exact rulesGo_selector_ne _ _ r h

/-- Witness for C9 on a one-rule stylesheet. -/
theorem selector_nonempty_invariant_witness :
    (⟨"p", "color:red"⟩ : Rule).selector ≠ "" :=
  selector_nonempty_invariant "p\x7bcolor:red\x7d" _ (by decide)

theorem findStudentCommit_eq_find? (l : List Commit) :
    findStudentCommit l = (l.find? (fun x => !isBotCommit x)).map (fun c => c.ct * 1000) := by
  induction l with
  | nil => rfl
  | cons c cs ih =>
    by_cases hb : isBotCommit c
    · simp [findStudentCommit, List.find?, hb, ih]
    · simp [findStudentCommit, List.find?, hb]

/-- C8: the lateness timestamp comes from the most recent commit in the
300-commit window whose author/committer/subject text carries no
automation marker; if every windowed commit is automated it falls back to
the most recent commit of any kind; and when history is unavailable or
empty it yields no timestamp and the run fails open to on-time. -/
theorem commit_resolver_fallback_failopen (gitOk : Bool) (history : List Commit) :
    getLatestStudentCommitEpochMs false history = none ∧
    getLatestStudentCommitEpochMs gitOk [] = none ∧
    wasSubmittedLate none = false ∧
    (∀ c : Commit, (history.take 300).find? (fun x => !isBotCommit x) = some c →
       getLatestStudentCommitEpochMs true history = some (c.ct * 1000)) ∧
    (∀ (c : Commit) (cs : List Commit), history = c :: cs →
       (∀ x ∈ history.take 300, isBotCommit x = true) →
       getLatestStudentCommitEpochMs true history = some (c.ct * 1000)) := by
  refine ⟨by simp [getLatestStudentCommitEpochMs], ?_, rfl, ?_, ?_⟩
  · cases gitOk <;> simp [getLatestStudentCommitEpochMs]
  · intro c hc
    have hw : (history.take 300).length ≠ 0 := by
      intro h0
      rw [List.length_eq_zero] at h0
      rw [h0] at hc
      simp at hc
    unfold getLatestStudentCommitEpochMs
    simp only [Bool.true_eq_false, if_false, hw, findStudentCommit_eq_find?, hc]
    rfl
  · rintro c cs rfl hall
    have hw : ((c :: cs).take 300).length ≠ 0 := by simp
    have hfind : ((c :: cs).take 300).find? (fun x => !isBotCommit x) = none := by
      rw [List.find?_eq_none]
      intro x hx
      simp [hall x hx]
    unfold getLatestStudentCommitEpochMs
    simp only [Bool.true_eq_false, if_false, hw, findStudentCommit_eq_find?, hfind]
    rfl

/-- Witness for C8: with a bot commit on top, the resolver returns the
student commit underneath; with only the bot commit, it falls back to it. -/
theorem commit_resolver_fallback_failopen_witness :
    getLatestStudentCommitEpochMs true
      [⟨100, "github-actions[bot]", "actions@github.com", "GitHub", "noreply@github.com",
         "auto grade"⟩,
       ⟨42, "Alice", "alice@kfupm.edu.sa", "Alice", "alice@kfupm.edu.sa", "finish lab"⟩] =
      some (42 * 1000) ∧
    getLatestStudentCommitEpochMs true
      [⟨100, "github-actions[bot]", "actions@github.com", "GitHub", "noreply@github.com",
         "auto grade"⟩] = some (100 * 1000) :=
  ⟨(commit_resolver_fallback_failopen true
      [⟨100, "github-actions[bot]", "actions@github.com", "GitHub", "noreply@github.com",
         "auto grade"⟩,
       ⟨42, "Alice", "alice@kfupm.edu.sa", "Alice", "alice@kfupm.edu.sa",
         "finish lab"⟩]).2.2.2.1
      ⟨42, "Alice", "alice@kfupm.edu.sa", "Alice", "alice@kfupm.edu.sa", "finish lab"⟩
      (by decide),
   (commit_resolver_fallback_failopen true
      [⟨100, "github-actions[bot]", "actions@github.com", "GitHub", "noreply@github.com",
         "auto grade"⟩]).2.2.2.2
      ⟨100, "github-actions[bot]", "actions@github.com", "GitHub", "noreply@github.com",
         "auto grade"⟩
      [] rfl (by decide)⟩

theorem dropWhile_head_false {p : Char → Bool} :
    ∀ (l : List Char) {e : Char} {tl : List Char},
      l.dropWhile p = e :: tl → p e = false := by
  intro l
  induction l with
  | nil => intro e tl h; simp [List.dropWhile] at h
  | cons a as ih =>
    intro e tl h
    rw [List.dropWhile_cons] at h
    by_cases ha : p a
    · rw [if_pos ha] at h; exact ih h
    · rw [if_neg ha] at h
      cases h
      simpa using ha

theorem rulesGo_eq_specSpans (fuel : Nat) :
    ∀ cs : List Char,
      rulesGo fuel cs = (specSpansGo fuel cs).flatMap (fun sp => emitRules sp.1 sp.2) := by
  induction fuel with
  | zero => intro cs; rfl
  | succ fuel ih =>
    intro cs
    cases cs with
    | nil => rfl
    | cons c rest =>
      by_cases hc : (c = '{' || c = '}') = true
      · simp only [rulesGo, specSpansGo, hc, if_true]
        exact ih rest
      · rw [Bool.not_eq_true] at hc
        cases hdrop : rest.dropWhile isBraceFree with
        | nil =>
          simp only [rulesGo, specSpansGo, hc, Bool.false_eq_true, if_false, hdrop]
          exact ih []
        | cons d tl =>
          by_cases hd : d = '{'
          · subst hd
            cases hdrop2 : tl.dropWhile (fun x => x ≠ '}') with
            | nil =>
              simp only [rulesGo, specSpansGo, hc, Bool.false_eq_true, if_false, hdrop, hdrop2]
              rfl
            | cons e tl2 =>
              by_cases he : e = '}'
              · subst he
                simp only [rulesGo, specSpansGo, hc, Bool.false_eq_true, if_false, hdrop,
                  hdrop2, List.flatMap_cons]
                rw [ih tl2]
              · have := dropWhile_head_false tl hdrop2
                simp [he] at this
          · have hbrace := dropWhile_head_false rest hdrop
            have hd' : d = '}' := by
              simp [isBraceFree, hd] at hbrace
              exact hbrace
            subst hd'
            simp only [rulesGo, specSpansGo, hc, Bool.false_eq_true, if_false, hdrop]
            exact ih ('}' :: tl)

theorem rulesGo_no_open_brace (fuel : Nat) :
    ∀ cs : List Char, '{' ∉ cs → rulesGo fuel cs = [] := by
  induction fuel with
  | zero => intro cs _; rfl
  | succ fuel ih =>
    intro cs hno
    cases cs with
    | nil => rfl
    | cons c rest =>
      have hcr : '{' ∉ rest := fun h => hno (List.mem_cons_of_mem _ h)
      have hcne : c ≠ '{' := fun h => hno (h ▸ List.mem_cons_self _ _)
      by_cases hc : (c = '{' || c = '}') = true
      · simp only [rulesGo, hc, if_true]
        exact ih rest hcr
      · rw [Bool.not_eq_true] at hc
        cases hdrop : rest.dropWhile isBraceFree with
        | nil =>
          simp only [rulesGo, hc, Bool.false_eq_true, if_false, hdrop]
          exact ih [] (by simp)
        | cons d tl =>
          have hbrace := dropWhile_head_false rest hdrop
          have hdmem : d ∈ rest := by
            have : d ∈ rest.dropWhile isBraceFree := by rw [hdrop]; exact List.mem_cons_self _ _
            exact List.dropWhile_subset _ this
          have hd : d ≠ '{' := fun h => hcr (h ▸ hdmem)
          have hd' : d = '}' := by
            simp [isBraceFree, hd] at hbrace
            exact hbrace
          subst hd'
          simp only [rulesGo, hc, Bool.false_eq_true, if_false, hdrop]
          exact ih ('}' :: tl) (fun h => by
            rcases List.mem_cons.1 h with h | h
            · exact absurd h.symm (by decide)
            · exact hcr (List.dropWhile_subset _ (hdrop ▸ List.mem_cons_of_mem _ h)))

/-- C4: the extractor is exactly the spec's staged pipeline — find each
`selector{declarations}` span (first `}` after a `{` closes the block),
split the selector on commas, normalize, discard empty pieces, and emit
one rule per piece sharing the normalized declaration text; text with no
`{` (in particular an empty or comment-only stylesheet) yields no rules. -/
theorem extractor_refines_spec (css : String) :
    parseCssRules css = specExtractRules css ∧
    parseCssRules "" = [] ∧
    ('{' ∉ (stripCssComments css).data → parseCssRules css = []) := by
  refine ⟨rulesGo_eq_specSpans _ _, rfl, fun hno => rulesGo_no_open_brace _ _ hno⟩

/-- Witness for C4 on a comment-only stylesheet. -/
theorem extractor_refines_spec_witness :
    parseCssRules "/* only a comment */" = specExtractRules "/* only a comment */" ∧
    parseCssRules "/* only a comment */" = [] :=
  ⟨(extractor_refines_spec "/* only a comment */").1,
   (extractor_refines_spec "/* only a comment */").2.2 (by decide)⟩

theorem dropWhile_append_all {p : Char → Bool} {ws : List Char}
    (h : ∀ c ∈ ws, p c = true) (l : List Char) :
    (ws ++ l).dropWhile p = l.dropWhile p := by
  induction ws with
  | nil => rfl
  | cons a as ih =>
    rw [List.cons_append, List.dropWhile_cons, if_pos (h a (List.mem_cons_self _ _))]
    exact ih (fun c hc => h c (List.mem_cons_of_mem _ hc))

theorem startsUntilColon_iff : ∀ (pl hay : List Char),
    (startsUntilColon pl hay = true ↔
      ∃ ws suf, hay = pl ++ ws ++ ':' :: suf ∧ (∀ c ∈ ws, jsIsSpace c = true)) := by
  intro pl
  induction pl with
  | nil =>
    intro hay
    constructor
    · intro h
      unfold startsUntilColon at h
      split at h
      case _ s heq =>
        refine ⟨hay.takeWhile jsIsSpace, s, ?_, fun c hc => List.mem_takeWhile_imp hc⟩
        conv_lhs => rw [← List.takeWhile_append_dropWhile jsIsSpace hay]
        rw [heq]
        rfl
      case _ => exact absurd h (by simp)
    · rintro ⟨ws, suf, rfl, hws⟩
      unfold startsUntilColon
      rw [List.nil_append, dropWhile_append_all hws]
      rfl
  | cons n ns ih =>
    intro hay
    cases hay with
    | nil =>
      simp only [startsUntilColon]
      constructor
      · intro h; exact absurd h (by simp)
      · rintro ⟨ws, suf, h, _⟩
        exact absurd h (by simp)
    | cons h hs =>
      rw [startsUntilColon, Bool.and_eq_true, decide_eq_true_iff, ih hs]
      constructor
      · rintro ⟨rfl, ws, suf, rfl, hws⟩
        exact ⟨ws, suf, rfl, hws⟩
      · rintro ⟨ws, suf, heq, hws⟩
        rw [List.cons_append, List.cons_append] at heq
        injection heq with h1 h2
        exact ⟨h1.symm, ws, suf, h2, hws⟩

theorem beforeSplit_cons (prev : Option Char) (a : Char) (pre : List Char) :
    beforeSplit prev (a :: pre) = beforeSplit (some a) pre := by
  cases pre with
  | nil => simp [beforeSplit]
  | cons b bs =>
    unfold beforeSplit
    rw [List.getLast?_cons_cons]
    cases hbs : (b :: bs).getLast? with
    | none => exact absurd (List.getLast?_eq_none_iff.1 hbs) (by simp)
    | some q => rfl

theorem searchProp_iff (c0 : Char) (cs0 : List Char) (hw : isWordChar c0 = true) :
    ∀ (hay : List Char) (prev : Option Char),
      (searchProp (c0 :: cs0) prev hay = true ↔
        ∃ pre ws suf, hay = pre ++ (c0 :: cs0) ++ ws ++ ':' :: suf ∧
          (∀ c ∈ ws, jsIsSpace c = true) ∧
          optWord (beforeSplit prev pre) = false) := by
  intro hay
  induction hay with
  | nil =>
    intro prev
    constructor
    · intro h
      exact absurd h (by simp [searchProp, startsUntilColon])
    · rintro ⟨pre, ws, suf, heq, -, -⟩
      exact absurd heq (by simp)
  | cons a hay ih =>
    intro prev
    rw [searchProp, Bool.or_eq_true, Bool.and_eq_true]
    constructor
    · rintro (⟨hb, hs⟩ | hrec)
      · obtain ⟨ws, suf, heq, hws⟩ := (startsUntilColon_iff _ _).1 hs
        refine ⟨[], ws, suf, by simpa using heq, hws, ?_⟩
        have ha : a = c0 := by
          injection heq
        have hb' : optWord prev = false := by
          unfold boundaryAt at hb
          rw [decide_eq_true_iff] at hb
          simp only [List.head?_cons, optWord, ha, hw] at hb
          cases hopt : optWord prev with
          | false => rfl
          | true => exact absurd hopt hb
        simpa [beforeSplit, List.getLast?_nil] using hb'
      · obtain ⟨pre, ws, suf, heq, hws, hb⟩ := (ih (some a)).1 hrec
        refine ⟨a :: pre, ws, suf, by rw [heq]; rfl, hws, ?_⟩
        rw [beforeSplit_cons]
        exact hb
    · rintro ⟨pre, ws, suf, heq, hws, hb⟩
      cases pre with
      | nil =>
        left
        rw [List.nil_append, List.cons_append] at heq
        injection heq with h1 h2
        constructor
        · unfold boundaryAt
          rw [decide_eq_true_iff]
          simp only [beforeSplit, List.getLast?_nil] at hb
          rw [hb]
          simp [optWord, h1, hw]
        · refine (startsUntilColon_iff _ _).2 ⟨ws, suf, ?_, hws⟩
          rw [List.cons_append, h1, h2]
          rfl
      | cons b pre' =>
        right
        rw [List.cons_append, List.cons_append] at heq
        injection heq with h1 h2
        refine (ih (some a)).2 ⟨pre', ws, suf, ?_, hws, ?_⟩
        · rw [h2]
          rfl
        · rw [← beforeSplit_cons prev, h1]
          exact hb

/-- C2: the evaluator judges that a declaration text has a property
exactly when the (lowercased) declaration contains the property name
immediately followed by an optional whitespace run and a colon, at a word
boundary; hence `border-color: red;` satisfies an any-of-["color"]
requirement while `colorful-border: red` does not. -/
theorem property_match_word_boundary_colon (d p : String)
    (hp : ∃ c cs, lowerL p.data = c :: cs ∧ isWordChar c = true) :
    (declsHasAnyProperty d [p] = true ↔ SpecPropMatch d p) ∧
    declsHasAnyProperty "border-color: red;" ["color"] = true ∧
    declsHasAnyProperty "colorful-border: red" ["color"] = false := by
  refine ⟨?_, by decide, by decide⟩
  obtain ⟨c0, cs0, hpl, hw⟩ := hp
  have h1 : declsHasAnyProperty d [p] = propColonTest d p := by
    simp [declsHasAnyProperty]
  rw [h1]
  unfold propColonTest
  rw [hpl, searchProp_iff c0 cs0 hw (lowerL d.data) none]
  unfold SpecPropMatch
  rw [hpl]
  constructor
  · rintro ⟨pre, ws, suf, heq, hws, hb⟩
    refine ⟨pre, ws, suf, heq, hws, ?_⟩
    cases hpre : pre.getLast? with
    | none =>
      left
      exact List.getLast?_eq_none_iff.1 hpre
    | some q =>
      right
      refine ⟨q, rfl, ?_⟩
      simp only [beforeSplit, hpre, optWord] at hb
      exact hb
  · rintro ⟨pre, ws, suf, heq, hws, hb⟩
    refine ⟨pre, ws, suf, heq, hws, ?_⟩
    rcases hb with rfl | ⟨q, hq, hqw⟩
    · simp [beforeSplit, optWord]
    · simp only [beforeSplit, hq, optWord]
      exact hqw

/-- Witness for C2 at the spec's two adversarial examples. -/
theorem property_match_word_boundary_colon_witness :
    declsHasAnyProperty "border-color: red;" ["color"] = true ∧
    declsHasAnyProperty "colorful-border: red" ["color"] = false :=
  ⟨(property_match_word_boundary_colon "border-color: red;" "color"
      ⟨'c', ['o', 'l', 'o', 'r'], by decide, by decide⟩).2.1,
   (property_match_word_boundary_colon "colorful-border: red" "color"
      ⟨'c', ['o', 'l', 'o', 'r'], by decide, by decide⟩).2.2⟩

end Grade
